import Mathlib

/-!
Verification of the preoomkiller-controller reconciliation core.

Shallow embedding of `main.go` (the canonical skip-and-continue variant,
adopted by the spec as the resolution of the per-candidate error-policy
divergence between the two collapsed variants of the file).

Memory quantities are modelled as natural numbers of bytes.  The external
collaborators (pod enumeration, metrics source, eviction capability) are
modelled as fields of a `World` value consulted by the embedded functions,
and the embedded `runOnce` additionally records a trace of per-candidate
events and of the eviction calls it issues, so that control-flow properties
(which candidates were processed, how often eviction was attempted, with
which arguments) are stated over those traces.
-/

namespace Preoomkiller

/-- A memory quantity in bytes (embeds `resource.Quantity` restricted to the
nonnegative memory quantities this program handles). -/
abbrev Quantity := Nat

/-- Embeds `Quantity.Cmp`: -1, 0 or 1 as the first argument is less than,
equal to or greater than the second.  `RunOnce` tests the result against 1. -/
def qcmp (a b : Quantity) : Int :=
  if a < b then -1 else if a = b then 0 else 1

/-- Embeds the loop in `RunOnce` (main.go lines 291-294) that starts from the
zero quantity `&resource.Quantity{}` and `Add`s each container's memory
reading. -/
def podUsage (readings : List Quantity) : Quantity :=
  readings.foldl (· + ·) 0

/-- Value of a `resource.Quantity` suffix, for the suffixes the spec's
threshold annotations use (binary and decimal SI); an unrecognized suffix is
a parse failure. -/
def suffixValue : String → Option Nat
  | "" => some 1
  | "k" => some 1000
  | "M" => some 1000000
  | "G" => some 1000000000
  | "T" => some 1000000000000
  | "P" => some 1000000000000000
  | "E" => some 1000000000000000000
  | "Ki" => some 1024
  | "Mi" => some 1048576
  | "Gi" => some 1073741824
  | "Ti" => some 1099511627776
  | "Pi" => some 1125899906842624
  | "Ei" => some 1152921504606846976
  | _ => none

/-- Numeric value of a digit string (most significant digit first). -/
def digitsVal (ds : List Char) : Nat :=
  ds.foldl (fun a c => a * 10 + (c.toNat - 48)) 0

/-- Modelled from the spec: the Threshold Parser (§4.1) — the source delegates
to the external library function `resource.ParseQuantity`, which is not part
of this repository.  Converts a human-readable memory quantity string such as
"512Mi" or "1Gi" into a comparable quantity; an empty or malformed string is
a typed failure (`none`), never a crash. -/
def parseQuantity (s : String) : Option Quantity :=
  let cs := s.toList
  let ds := cs.takeWhile Char.isDigit
  let rest := cs.dropWhile Char.isDigit
  if ds.isEmpty then none
  else
    match suffixValue (String.mk rest) with
    | none => none
    | some m => some (digitsVal ds * m)

/-- Embeds the constant `PreoomkillerAnnotationMemoryThresholdKey`. -/
def PreoomkillerAnnotationMemoryThresholdKey : String :=
  "preoomkiller.alpha.k8s.zapier.com/memory-threshold"

/-- A candidate pod as `RunOnce` sees it: identity plus its annotations map
(modelled as an association list). -/
structure PodSpec where
  name : String
  ns : String
  annotations : List (String × String)
deriving Repr, DecidableEq

/-- Embeds the Go map index `pod.ObjectMeta.Annotations[key]`, which yields
the empty string when the key is absent. -/
def annotLookup (annots : List (String × String)) (key : String) : String :=
  match annots.find? (fun kv => kv.1 = key) with
  | some kv => kv.2
  | none => ""

/-- The threshold annotation string of a pod. -/
def thresholdAnnot (p : PodSpec) : String :=
  annotLookup p.annotations PreoomkillerAnnotationMemoryThresholdKey

/-- Classification of a non-nil error returned by the external eviction
capability, as `evictPod` distinguishes it via `apierrors.IsTooManyRequests`
and `apierrors.IsNotFound`. -/
inductive ApiError
  | tooManyRequests
  | notFound
  | other (msg : String)
deriving Repr, DecidableEq

/-- The external collaborators of one reconciliation cycle: the pod
enumeration result, the metrics source (ns → name → per-container memory
readings, `none` when the fetch fails or the pod is absent from it), and the
eviction capability (ns → name → error of the eviction request, `none` for
success). -/
structure World where
  listResult : Option (List PodSpec)
  metrics : String → String → Option (List Quantity)
  client : String → String → Option ApiError

/-- Result of the embedded `evictPod`: the returned bool, the returned error
(classification preserved), and whether the external eviction capability was
contacted (the `Evict` call is on the non-dry-run path only). -/
structure EvictResult where
  evicted : Bool
  err : Option ApiError
  contacted : Bool
deriving Repr, DecidableEq

/-- Embeds `evictPod` (main.go lines 224-252): dry run short-circuits to
success without contacting the capability; otherwise the eviction request is
issued and the response classified — nil error passes through as success,
"too many requests" returns false with a wrapped error, "not found" returns
TRUE with a wrapped error, anything else returns false with the error. -/
def evictPod (client : String → String → Option ApiError)
    (podName podNamespace policyGroupVersion : String) (dryRun : Bool) :
    EvictResult :=
  if dryRun then ⟨true, none, false⟩
  else
    match client podNamespace podName with
    | none => ⟨true, none, true⟩
    | some .tooManyRequests => ⟨false, some .tooManyRequests, true⟩
    | some .notFound => ⟨true, some .notFound, true⟩
    | some (.other m) => ⟨false, some (.other m), true⟩

/-- The arguments of one call `RunOnce` makes to `evictPod` (main.go line
297). -/
structure EvictCall where
  name : String
  ns : String
  groupVersion : String
  dryRun : Bool
deriving Repr, DecidableEq

/-- What happened to one candidate during a cycle, mirroring the log
statements of `RunOnce`: threshold parse failure (skipped, line 274),
metrics fetch failure (line 287, the cycle returns), usage not above
threshold (no eviction), eviction attempted with a non-nil error (logged as
`PodEvictionError`, line 299), or eviction attempted and counted
(`PodEvicted`, line 302). -/
inductive PodEvent
  | parseFailed (name ns : String)
  | metricsFailed (name ns : String)
  | notEvicted (name ns : String)
  | evictionErrorLogged (name ns : String) (e : ApiError)
  | evicted (name ns : String)
deriving Repr, DecidableEq

/-- The error `RunOnce` returns: the pod-list error (line 263) or a
candidate's metrics-fetch error (line 288). -/
inductive RunError
  | listFailed
  | metricsFailed (name ns : String)
deriving Repr, DecidableEq

/-- Observable result of one embedded `RunOnce` cycle: the returned error,
the eviction counter at return, the per-candidate event trace, and the trace
of `evictPod` calls issued. -/
structure RunOnceResult where
  err : Option RunError
  evictionCount : Nat
  events : List PodEvent
  attempts : List EvictCall
deriving Repr, DecidableEq

/-- Embeds the per-candidate loop of `RunOnce` (main.go lines 266-305),
carrying the eviction counter and the accumulated traces (most recent
first; reversed on return). -/
def runOnceAux (w : World) :
    List PodSpec → Nat → List PodEvent → List EvictCall → RunOnceResult
  | [], count, evs, atts => ⟨none, count, evs.reverse, atts.reverse⟩
  | p :: rest, count, evs, atts =>
    match parseQuantity (thresholdAnnot p) with
    | none =>
      runOnceAux w rest count (.parseFailed p.name p.ns :: evs) atts
    | some threshold =>
      match w.metrics p.ns p.name with
      | none =>
        ⟨some (.metricsFailed p.name p.ns), count,
          (PodEvent.metricsFailed p.name p.ns :: evs).reverse, atts.reverse⟩
      | some readings =>
        let usage := podUsage readings
        if qcmp usage threshold = 1 then
          let call : EvictCall := ⟨p.name, p.ns, "v1", false⟩
          let r := evictPod w.client p.name p.ns "v1" false
          match r.err with
          | none =>
            runOnceAux w rest (count + 1)
              (.evicted p.name p.ns :: evs) (call :: atts)
          | some e =>
            runOnceAux w rest count
              (.evictionErrorLogged p.name p.ns e :: evs) (call :: atts)
        else
          runOnceAux w rest count (.notEvicted p.name p.ns :: evs) atts

/-- Embeds `RunOnce` (main.go lines 255-308): list the candidate pods —
failure is returned at once — then process them in order. -/
def runOnce (w : World) : RunOnceResult :=
  match w.listResult with
  | none => ⟨some .listFailed, 0, [], []⟩
  | some pods => runOnceAux w pods 0 [] []

/-- A signal the scheduler loop's `select` can observe: a timer tick or the
cancellation channel. -/
inductive Sig
  | tick
  | stop
deriving Repr, DecidableEq

/-- Embeds `Run` (main.go lines 311-327) over a finite schedule of observed
signals: each iteration runs one full `RunOnce` (its error is only logged),
then blocks on `select`; a tick starts the next iteration, the cancellation
signal returns.  The result is the list of completed cycle results in order
and whether the loop terminated (an exhausted schedule means the loop is
still blocked in `select`). -/
def runLoop (w : World) : List Sig → List RunOnceResult × Bool
  | [] => ([runOnce w], false)
  | .stop :: _ => ([runOnce w], true)
  | .tick :: rest => (runOnce w :: (runLoop w rest).1, (runLoop w rest).2)

/-- The per-candidate outcome of a cycle in which the candidate's metrics
fetch succeeds, as a function of that candidate's data alone. -/
def eventOf (w : World) (p : PodSpec) : PodEvent :=
  match parseQuantity (thresholdAnnot p) with
  | none => .parseFailed p.name p.ns
  | some threshold =>
    let usage := podUsage ((w.metrics p.ns p.name).getD [])
    if qcmp usage threshold = 1 then
      match (evictPod w.client p.name p.ns "v1" false).err with
      | none => .evicted p.name p.ns
      | some e => .evictionErrorLogged p.name p.ns e
    else
      .notEvicted p.name p.ns

/-- The eviction call a candidate with a reachable metrics fetch gives rise
to, if any. -/
def attemptOf (w : World) (p : PodSpec) : Option EvictCall :=
  match parseQuantity (thresholdAnnot p) with
  | none => none
  | some threshold =>
    if qcmp (podUsage ((w.metrics p.ns p.name).getD [])) threshold = 1 then
      some ⟨p.name, p.ns, "v1", false⟩
    else
      none

/-- The eviction outcome taxonomy of the spec (§4.3, `EvictionOutcome`). -/
inductive EvictionOutcome
  | Succeeded
  | AlreadyGone
  | Throttled
  | Failed
deriving Repr, DecidableEq

/-- Modelled from the spec: the Eviction Executor policy of §4.3, classifying
the response of the external eviction capability — no error → Succeeded,
"too many requests" → Throttled, "not found" → AlreadyGone, any other
error → Failed. -/
def specOutcome : Option ApiError → EvictionOutcome
  | none => .Succeeded
  | some .tooManyRequests => .Throttled
  | some .notFound => .AlreadyGone
  | some (.other _) => .Failed

/-- The outcome `evictPod`'s returned pair encodes for a non-dry-run call:
the bool distinguishes success (including the pod already being gone) from
failure, and the preserved error classification separates throttling from
other failures. -/
def codeOutcome (r : EvictResult) : EvictionOutcome :=
  match r.err with
  | none => .Succeeded
  | some .tooManyRequests => .Throttled
  | some .notFound => if r.evicted then .AlreadyGone else .Failed
  | some (.other _) => .Failed

/-- Contribution of one candidate to the eviction counter of a completed
cycle: 1 exactly when the candidate's eviction attempt came back without an
error. -/
def countedOf (w : World) (p : PodSpec) : Nat :=
  match eventOf w p with
  | .evicted _ _ => 1
  | _ => 0

/-- A candidate's event witnesses that the candidate reached the
usage-versus-threshold evaluation (it was neither skipped for a malformed
annotation nor cut off by a metrics failure). -/
def isEvaluated : PodEvent → Bool
  | .parseFailed _ _ => false
  | .metricsFailed _ _ => false
  | _ => true

/-- The key (name, namespace) of the pod an eviction call targets. -/
def callKey (a : EvictCall) : String × String := (a.name, a.ns)

/-- The key (name, namespace) of a candidate pod. -/
def podKey (q : PodSpec) : String × String := (q.name, q.ns)

/-! Section: Concrete candidates and worlds used to exercise the theorems -/

/-- A candidate with threshold 512Mi. -/
def podAlpha : PodSpec :=
  ⟨"alpha", "prod", [(PreoomkillerAnnotationMemoryThresholdKey, "512Mi")]⟩

/-- A second candidate with threshold 512Mi. -/
def podBeta : PodSpec :=
  ⟨"beta", "prod", [(PreoomkillerAnnotationMemoryThresholdKey, "512Mi")]⟩

/-- A candidate with a malformed threshold annotation. -/
def podGamma : PodSpec :=
  ⟨"gamma", "prod", [(PreoomkillerAnnotationMemoryThresholdKey, "abc")]⟩

/-- A candidate with threshold 1Gi. -/
def podEpsilon : PodSpec :=
  ⟨"epsilon", "prod", [(PreoomkillerAnnotationMemoryThresholdKey, "1Gi")]⟩

/-- Cycle with a malformed candidate among healthy ones: alpha uses 600Mi,
beta 400Mi, every metrics fetch succeeds, evictions succeed. -/
def wC1 : World :=
  ⟨some [podGamma, podAlpha, podBeta],
    fun _ n =>
      if n = "alpha" then some [629145600]
      else if n = "beta" then some [419430400] else some [0],
    fun _ _ => none⟩

/-- Cycle in which the first candidate's metrics fetch fails while the
second candidate is healthy and over threshold. -/
def wC2 : World :=
  ⟨some [podAlpha, podBeta],
    fun _ n => if n = "alpha" then none else some [629145600],
    fun _ _ => none⟩

/-- Cycle in which the violating candidate's eviction request comes back
"not found". -/
def wC3 : World :=
  ⟨some [podAlpha], fun _ _ => some [629145600], fun _ _ => some .notFound⟩

/-- Cycle with one candidate over threshold (600Mi against 512Mi) and one
under it (400Mi); evictions succeed. -/
def wC4 : World :=
  ⟨some [podAlpha, podBeta],
    fun _ n => if n = "alpha" then some [629145600] else some [419430400],
    fun _ _ => none⟩

/-- Cycle whose violating candidate is throttled by the eviction
capability. -/
def wC5 : World :=
  ⟨some [podAlpha], fun _ _ => some [629145600],
    fun _ _ => some .tooManyRequests⟩

/-- World whose candidate enumeration fails. -/
def wC6a : World := ⟨none, fun _ _ => none, fun _ _ => none⟩

/-- Listing succeeds but the sole candidate's metrics fetch fails. -/
def wC6b : World := ⟨some [podAlpha], fun _ _ => none, fun _ _ => none⟩

/-- Listing succeeds; one malformed candidate and one whose eviction request
fails outright. -/
def wC6c : World :=
  ⟨some [podGamma, podAlpha], fun _ _ => some [629145600],
    fun _ _ => some (.other "boom")⟩

/-- Cycle whose candidate has an empty sequence of container readings. -/
def wC8 : World :=
  ⟨some [podEpsilon], fun _ _ => some [], fun _ _ => none⟩

/-! Section: Unfolding lemmas for the per-candidate loop -/

theorem qcmp_eq_one_iff (a b : Nat) : qcmp a b = 1 ↔ b < a := by
  unfold qcmp
  split_ifs with h1 h2
  · constructor
    · intro h; exact absurd h (by decide)
    · intro h; exact absurd (Nat.lt_trans h h1) (Nat.lt_irrefl _)
  · constructor
    · intro h; exact absurd h (by decide)
    · intro h; exact absurd (h2 ▸ h) (Nat.lt_irrefl _)
  · constructor
    · intro _
      exact Nat.lt_of_le_of_ne (Nat.le_of_not_lt h1) (fun hh => h2 hh.symm)
    · intro _; rfl

theorem runOnceAux_nil (w : World) (c : Nat) (evs : List PodEvent)
    (atts : List EvictCall) :
    runOnceAux w [] c evs atts = ⟨none, c, evs.reverse, atts.reverse⟩ := rfl

theorem runOnceAux_parseFail (w : World) (p : PodSpec) (rest : List PodSpec)
    (c : Nat) (evs : List PodEvent) (atts : List EvictCall)
    (h : parseQuantity (thresholdAnnot p) = none) :
    runOnceAux w (p :: rest) c evs atts =
      runOnceAux w rest c (.parseFailed p.name p.ns :: evs) atts := by
  simp [runOnceAux, h]

theorem runOnceAux_metricsFail (w : World) (p : PodSpec) (rest : List PodSpec)
    (c : Nat) (evs : List PodEvent) (atts : List EvictCall) (t : Quantity)
    (hthr : parseQuantity (thresholdAnnot p) = some t)
    (hm : w.metrics p.ns p.name = none) :
    runOnceAux w (p :: rest) c evs atts =
      ⟨some (.metricsFailed p.name p.ns), c,
        (PodEvent.metricsFailed p.name p.ns :: evs).reverse, atts.reverse⟩ := by
  simp [runOnceAux, hthr, hm]

theorem runOnceAux_noEvict (w : World) (p : PodSpec) (rest : List PodSpec)
    (c : Nat) (evs : List PodEvent) (atts : List EvictCall) (t : Quantity)
    (rs : List Quantity)
    (hthr : parseQuantity (thresholdAnnot p) = some t)
    (hm : w.metrics p.ns p.name = some rs)
    (hc : ¬ qcmp (podUsage rs) t = 1) :
    runOnceAux w (p :: rest) c evs atts =
      runOnceAux w rest c (.notEvicted p.name p.ns :: evs) atts := by
  simp [runOnceAux, hthr, hm, hc]

theorem runOnceAux_evictOk (w : World) (p : PodSpec) (rest : List PodSpec)
    (c : Nat) (evs : List PodEvent) (atts : List EvictCall) (t : Quantity)
    (rs : List Quantity)
    (hthr : parseQuantity (thresholdAnnot p) = some t)
    (hm : w.metrics p.ns p.name = some rs)
    (hc : qcmp (podUsage rs) t = 1)
    (he : (evictPod w.client p.name p.ns "v1" false).err = none) :
    runOnceAux w (p :: rest) c evs atts =
      runOnceAux w rest (c + 1) (.evicted p.name p.ns :: evs)
        (⟨p.name, p.ns, "v1", false⟩ :: atts) := by
  simp only [runOnceAux, hthr, hm, hc, if_pos]
  rw [he]

theorem runOnceAux_evictErr (w : World) (p : PodSpec) (rest : List PodSpec)
    (c : Nat) (evs : List PodEvent) (atts : List EvictCall) (t : Quantity)
    (rs : List Quantity) (e : ApiError)
    (hthr : parseQuantity (thresholdAnnot p) = some t)
    (hm : w.metrics p.ns p.name = some rs)
    (hc : qcmp (podUsage rs) t = 1)
    (he : (evictPod w.client p.name p.ns "v1" false).err = some e) :
    runOnceAux w (p :: rest) c evs atts =
      runOnceAux w rest c (.evictionErrorLogged p.name p.ns e :: evs)
        (⟨p.name, p.ns, "v1", false⟩ :: atts) := by
  simp only [runOnceAux, hthr, hm, hc, if_pos]
  rw [he]

theorem eventOf_parseFail (w : World) (p : PodSpec)
    (h : parseQuantity (thresholdAnnot p) = none) :
    eventOf w p = .parseFailed p.name p.ns := by
  simp [eventOf, h]

theorem eventOf_noEvict (w : World) (p : PodSpec) (t : Quantity)
    (rs : List Quantity)
    (hthr : parseQuantity (thresholdAnnot p) = some t)
    (hm : w.metrics p.ns p.name = some rs)
    (hc : ¬ qcmp (podUsage rs) t = 1) :
    eventOf w p = .notEvicted p.name p.ns := by
  simp [eventOf, hthr, hm, hc]

theorem eventOf_evictOk (w : World) (p : PodSpec) (t : Quantity)
    (rs : List Quantity)
    (hthr : parseQuantity (thresholdAnnot p) = some t)
    (hm : w.metrics p.ns p.name = some rs)
    (hc : qcmp (podUsage rs) t = 1)
    (he : (evictPod w.client p.name p.ns "v1" false).err = none) :
    eventOf w p = .evicted p.name p.ns := by
  simp only [eventOf, hthr, hm, Option.getD_some, hc, if_pos]
  rw [he]

theorem eventOf_evictErr (w : World) (p : PodSpec) (t : Quantity)
    (rs : List Quantity) (e : ApiError)
    (hthr : parseQuantity (thresholdAnnot p) = some t)
    (hm : w.metrics p.ns p.name = some rs)
    (hc : qcmp (podUsage rs) t = 1)
    (he : (evictPod w.client p.name p.ns "v1" false).err = some e) :
    eventOf w p = .evictionErrorLogged p.name p.ns e := by
  simp only [eventOf, hthr, hm, Option.getD_some, hc, if_pos]
  rw [he]

theorem attemptOf_parseFail (w : World) (p : PodSpec)
    (h : parseQuantity (thresholdAnnot p) = none) :
    attemptOf w p = none := by
  simp [attemptOf, h]

theorem attemptOf_noEvict (w : World) (p : PodSpec) (t : Quantity)
    (rs : List Quantity)
    (hthr : parseQuantity (thresholdAnnot p) = some t)
    (hm : w.metrics p.ns p.name = some rs)
    (hc : ¬ qcmp (podUsage rs) t = 1) :
    attemptOf w p = none := by
  simp [attemptOf, hthr, hm, hc]

theorem attemptOf_evict (w : World) (p : PodSpec) (t : Quantity)
    (rs : List Quantity)
    (hthr : parseQuantity (thresholdAnnot p) = some t)
    (hm : w.metrics p.ns p.name = some rs)
    (hc : qcmp (podUsage rs) t = 1) :
    attemptOf w p = some ⟨p.name, p.ns, "v1", false⟩ := by
  simp [attemptOf, hthr, hm, hc]

theorem attemptOf_name_ns (w : World) (p : PodSpec) (c : EvictCall)
    (h : attemptOf w p = some c) : c = ⟨p.name, p.ns, "v1", false⟩ := by
  unfold attemptOf at h
  split at h
  · exact absurd h (by simp)
  · split at h
    · exact (Option.some_inj.mp h).symm
    · exact absurd h (by simp)

/-! Section: The per-cycle trace characterization -/

/-- When every candidate whose threshold annotation parses has a reachable
metrics fetch, the per-candidate loop completes the whole list: it returns no
error, adds one `countedOf` unit per counted eviction, appends one event per
candidate — each determined by that candidate's own data — and appends one
eviction call per candidate whose usage strictly exceeds its threshold. -/
theorem runOnceAux_trace (w : World) :
    ∀ (ps : List PodSpec) (c : Nat) (evs : List PodEvent)
      (atts : List EvictCall),
      (∀ q ∈ ps, parseQuantity (thresholdAnnot q) ≠ none →
        (w.metrics q.ns q.name).isSome) →
      runOnceAux w ps c evs atts =
        ⟨none, c + (ps.map (countedOf w)).sum,
          evs.reverse ++ ps.map (eventOf w),
          atts.reverse ++ ps.filterMap (attemptOf w)⟩ := by
  intro ps
  induction ps with
  | nil => intro c evs atts _; simp [runOnceAux_nil]
  | cons p rest ih =>
    intro c evs atts hmet
    have hmetRest : ∀ q ∈ rest, parseQuantity (thresholdAnnot q) ≠ none →
        (w.metrics q.ns q.name).isSome :=
      fun q hq => hmet q (List.mem_cons_of_mem p hq)
    cases hthr : parseQuantity (thresholdAnnot p) with
    | none =>
      rw [runOnceAux_parseFail w p rest c evs atts hthr, ih c _ atts hmetRest]
      simp [eventOf_parseFail w p hthr, attemptOf_parseFail w p hthr,
        countedOf, List.filterMap_cons]
    | some t =>
      have hsome : (w.metrics p.ns p.name).isSome :=
        hmet p (List.mem_cons_self p rest) (by simp [hthr])
      obtain ⟨rs, hm⟩ := Option.isSome_iff_exists.mp hsome
      by_cases hc : qcmp (podUsage rs) t = 1
      · cases he : (evictPod w.client p.name p.ns "v1" false).err with
        | none =>
          rw [runOnceAux_evictOk w p rest c evs atts t rs hthr hm hc he,
            ih (c + 1) _ _ hmetRest]
          have hev := eventOf_evictOk w p t rs hthr hm hc he
          have hat := attemptOf_evict w p t rs hthr hm hc
          simp [hev, hat, countedOf, List.filterMap_cons]
          omega
        | some e =>
          rw [runOnceAux_evictErr w p rest c evs atts t rs e hthr hm hc he,
            ih c _ _ hmetRest]
          have hev := eventOf_evictErr w p t rs e hthr hm hc he
          have hat := attemptOf_evict w p t rs hthr hm hc
          simp [hev, hat, countedOf, List.filterMap_cons]
      · rw [runOnceAux_noEvict w p rest c evs atts t rs hthr hm hc,
          ih c _ atts hmetRest]
        have hev := eventOf_noEvict w p t rs hthr hm hc
        have hat := attemptOf_noEvict w p t rs hthr hm hc
        simp [hev, hat, countedOf, List.filterMap_cons]

/-- `runOnce` under the same reachability condition: no error, and the
event/attempt traces are the per-candidate maps. -/
theorem runOnce_trace (w : World) (pods : List PodSpec)
    (hlist : w.listResult = some pods)
    (hmet : ∀ q ∈ pods, parseQuantity (thresholdAnnot q) ≠ none →
      (w.metrics q.ns q.name).isSome) :
    runOnce w =
      ⟨none, (pods.map (countedOf w)).sum, pods.map (eventOf w),
        pods.filterMap (attemptOf w)⟩ := by
  unfold runOnce
  rw [hlist]
  simpa using runOnceAux_trace w pods 0 [] [] hmet

/-- Counting occurrences of a key in a `filterMap` whose values carry the key
of the element they came from: with pairwise-distinct keys, an element
contributes its own key exactly once when the function fires on it, and no
other element can contribute that key. -/
theorem count_key_filterMap {α β : Type} [BEq β] [LawfulBEq β]
    (f : α → Option β) (k : α → β)
    (hf : ∀ a b, f a = some b → b = k a) :
    ∀ (ps : List α) (p : α), (ps.map k).Nodup → p ∈ ps →
      (ps.filterMap f).count (k p) = if (f p).isSome then 1 else 0 := by
  intro ps
  induction ps with
  | nil => intro p _ hp; cases hp
  | cons a rest ih =>
    intro p hnd hp
    rw [List.map_cons, List.nodup_cons] at hnd
    obtain ⟨hka, hnd'⟩ := hnd
    rcases List.mem_cons.mp hp with rfl | hp'
    · have hrest : (rest.filterMap f).count (k p) = 0 := by
        rw [List.count_eq_zero]
        intro hmem
        obtain ⟨q, hq, hfq⟩ := List.mem_filterMap.mp hmem
        exact hka ((hf q _ hfq) ▸ List.mem_map_of_mem k hq)
      cases hfa : f p with
      | none => simp [List.filterMap_cons, hfa, hrest]
      | some b =>
        have hb := hf p b hfa
        subst hb
        simp [List.filterMap_cons, hfa, List.count_cons, hrest]
    · have hkp : k p ≠ k a := by
        intro he
        exact hka (he ▸ List.mem_map_of_mem k hp')
      have hrec := ih p hnd' hp'
      cases hfa : f a with
      | none => simpa [List.filterMap_cons, hfa] using hrec
      | some b =>
        have hb := hf a b hfa
        subst hb
        simp [List.filterMap_cons, hfa, List.count_cons, hkp, hrec]

/-- In a completed cycle over candidates with pairwise-distinct identities,
the number of eviction calls aimed at a given candidate is 1 when that
candidate's data makes the loop attempt an eviction and 0 otherwise. -/
theorem runOnce_attempt_count (w : World) (pods : List PodSpec) (p : PodSpec)
    (hlist : w.listResult = some pods)
    (hmet : ∀ q ∈ pods, parseQuantity (thresholdAnnot q) ≠ none →
      (w.metrics q.ns q.name).isSome)
    (hnd : (pods.map podKey).Nodup) (hp : p ∈ pods) :
    ((runOnce w).attempts.map callKey).count (podKey p) =
      if (attemptOf w p).isSome then 1 else 0 := by
  rw [runOnce_trace w pods hlist hmet]
  have hmapfm : (pods.filterMap (attemptOf w)).map callKey =
      pods.filterMap (fun q => (attemptOf w q).map callKey) :=
    List.map_filterMap (attemptOf w) callKey pods
  have hkeyed : ∀ (q : PodSpec) (b : String × String),
      Option.map callKey (attemptOf w q) = some b → b = podKey q := by
    intro q b hb
    cases hatt : attemptOf w q with
    | none => rw [hatt] at hb; exact absurd hb (by simp)
    | some cq =>
      rw [hatt] at hb
      have hcq := attemptOf_name_ns w q cq hatt
      subst hcq
      simpa [callKey, podKey] using hb.symm
  show ((pods.filterMap (attemptOf w)).map callKey).count (podKey p) = _
  rw [hmapfm, count_key_filterMap (fun q => Option.map callKey (attemptOf w q))
    podKey hkeyed pods p hnd hp]
  cases hatt : attemptOf w p <;> simp [hatt]

/-- Processing a fully healthy prefix of the candidate list accumulates that
prefix's counter units, events and eviction calls and then continues with
the remaining candidates. -/
theorem runOnceAux_append (w : World) :
    ∀ (done more : List PodSpec) (c : Nat) (evs : List PodEvent)
      (atts : List EvictCall),
      (∀ q ∈ done, parseQuantity (thresholdAnnot q) ≠ none →
        (w.metrics q.ns q.name).isSome) →
      runOnceAux w (done ++ more) c evs atts =
        runOnceAux w more (c + (done.map (countedOf w)).sum)
          ((done.map (eventOf w)).reverse ++ evs)
          ((done.filterMap (attemptOf w)).reverse ++ atts) := by
  intro done
  induction done with
  | nil => intro more c evs atts _; simp
  | cons p rest ih =>
    intro more c evs atts hmet
    have hmetRest : ∀ q ∈ rest, parseQuantity (thresholdAnnot q) ≠ none →
        (w.metrics q.ns q.name).isSome :=
      fun q hq => hmet q (List.mem_cons_of_mem p hq)
    rw [List.cons_append]
    cases hthr : parseQuantity (thresholdAnnot p) with
    | none =>
      rw [runOnceAux_parseFail w p (rest ++ more) c evs atts hthr,
        ih more c _ atts hmetRest]
      simp [eventOf_parseFail w p hthr, attemptOf_parseFail w p hthr,
        countedOf, List.filterMap_cons]
    | some t =>
      have hsome : (w.metrics p.ns p.name).isSome :=
        hmet p (List.mem_cons_self p rest) (by simp [hthr])
      obtain ⟨rs, hm⟩ := Option.isSome_iff_exists.mp hsome
      by_cases hc : qcmp (podUsage rs) t = 1
      · cases he : (evictPod w.client p.name p.ns "v1" false).err with
        | none =>
          rw [runOnceAux_evictOk w p (rest ++ more) c evs atts t rs hthr hm
            hc he, ih more (c + 1) _ _ hmetRest]
          have hev := eventOf_evictOk w p t rs hthr hm hc he
          have hat := attemptOf_evict w p t rs hthr hm hc
          simp [hev, hat, countedOf, List.filterMap_cons]
          rw [Nat.add_assoc]
        | some e =>
          rw [runOnceAux_evictErr w p (rest ++ more) c evs atts t rs e hthr
            hm hc he, ih more c _ _ hmetRest]
          have hev := eventOf_evictErr w p t rs e hthr hm hc he
          have hat := attemptOf_evict w p t rs hthr hm hc
          simp [hev, hat, countedOf, List.filterMap_cons, List.append_assoc]
      · rw [runOnceAux_noEvict w p (rest ++ more) c evs atts t rs hthr hm hc,
          ih more c _ atts hmetRest]
        have hev := eventOf_noEvict w p t rs hthr hm hc
        have hat := attemptOf_noEvict w p t rs hthr hm hc
        simp [hev, hat, countedOf, List.filterMap_cons, List.append_assoc]

/-- Every eviction call the per-candidate loop adds to its accumulator is
made with the dry-run argument hard-coded to false. -/
theorem runOnceAux_attempts_not_dryRun (w : World) :
    ∀ (ps : List PodSpec) (c : Nat) (evs : List PodEvent)
      (atts : List EvictCall),
      (∀ a ∈ atts, a.dryRun = false) →
      ∀ a ∈ (runOnceAux w ps c evs atts).attempts, a.dryRun = false := by
  intro ps
  induction ps with
  | nil =>
    intro c evs atts h a ha
    rw [runOnceAux_nil] at ha
    exact h a (List.mem_reverse.mp ha)
  | cons p rest ih =>
    intro c evs atts h
    cases hthr : parseQuantity (thresholdAnnot p) with
    | none =>
      rw [runOnceAux_parseFail w p rest c evs atts hthr]
      exact ih c _ atts h
    | some t =>
      cases hm : w.metrics p.ns p.name with
      | none =>
        rw [runOnceAux_metricsFail w p rest c evs atts t hthr hm]
        intro a ha
        exact h a (List.mem_reverse.mp ha)
      | some rs =>
        by_cases hc : qcmp (podUsage rs) t = 1
        · have hcall : ∀ a ∈ (⟨p.name, p.ns, "v1", false⟩ :: atts : List EvictCall),
              a.dryRun = false := by
            intro a ha
            rcases List.mem_cons.mp ha with rfl | ha'
            · rfl
            · exact h a ha'
          cases he : (evictPod w.client p.name p.ns "v1" false).err with
          | none =>
            rw [runOnceAux_evictOk w p rest c evs atts t rs hthr hm hc he]
            exact ih (c + 1) _ _ hcall
          | some e =>
            rw [runOnceAux_evictErr w p rest c evs atts t rs e hthr hm hc he]
            exact ih c _ _ hcall
        · rw [runOnceAux_noEvict w p rest c evs atts t rs hthr hm hc]
          exact ih c _ atts h

/-! Section: The claims -/

/-- Claim C1: in a candidate list in which one candidate carries a malformed or
absent threshold annotation (and the remaining candidates' metrics are
reachable), `RunOnce` skips exactly that candidate — its event is the
parse-failure skip — and still evaluates every other candidate in the same
cycle, each from its own data alone; the cycle is not aborted by the parse
failure (no error is returned). -/
theorem parse_failure_skips_candidate_only (w : World) (pods : List PodSpec)
    (p : PodSpec)
    (hlist : w.listResult = some pods)
    (hmet : ∀ q ∈ pods, parseQuantity (thresholdAnnot q) ≠ none →
      (w.metrics q.ns q.name).isSome)
    (hp : p ∈ pods)
    (hbad : parseQuantity (thresholdAnnot p) = none) :
    (runOnce w).err = none ∧
    (runOnce w).events = pods.map (eventOf w) ∧
    eventOf w p = .parseFailed p.name p.ns ∧
    ∀ q ∈ pods, parseQuantity (thresholdAnnot q) ≠ none →
      isEvaluated (eventOf w q) = true := by
  refine ⟨?_, ?_, eventOf_parseFail w p hbad, ?_⟩
  · rw [runOnce_trace w pods hlist hmet]
  · rw [runOnce_trace w pods hlist hmet]
  · intro q hq hgood
    cases hthr : parseQuantity (thresholdAnnot q) with
    | none => exact absurd hthr hgood
    | some t =>
      obtain ⟨rs, hm⟩ :=
        Option.isSome_iff_exists.mp (hmet q hq (by simp [hthr]))
      by_cases hc : qcmp (podUsage rs) t = 1
      · cases he : (evictPod w.client q.name q.ns "v1" false).err with
        | none => rw [eventOf_evictOk w q t rs hthr hm hc he]; rfl
        | some e => rw [eventOf_evictErr w q t rs e hthr hm hc he]; rfl
      · rw [eventOf_noEvict w q t rs hthr hm hc]; rfl

/-- Claim C1 witness: the malformed candidate gamma is skipped while alpha and
beta are both evaluated in the same cycle. -/
theorem parse_failure_skips_candidate_only_witness :
    (runOnce wC1).err = none ∧
    (runOnce wC1).events = [podGamma, podAlpha, podBeta].map (eventOf wC1) ∧
    eventOf wC1 podGamma = .parseFailed podGamma.name podGamma.ns ∧
    ∀ q ∈ [podGamma, podAlpha, podBeta],
      parseQuantity (thresholdAnnot q) ≠ none →
      isEvaluated (eventOf wC1 q) = true :=
  parse_failure_skips_candidate_only wC1 [podGamma, podAlpha, podBeta]
    podGamma rfl (by decide) (by decide) (by decide)

/-- Claim C2 counterexample: with candidates alpha then beta where alpha's metrics
fetch fails, `RunOnce` (which contains a `return err` at the metrics fetch,
main.go line 288) aborts the whole cycle: it returns the error and beta is
never processed — refuting the claim that only the failing candidate is
skipped. -/
theorem metrics_failure_aborts_cycle_cex :
    wC2.listResult = some [podAlpha, podBeta] ∧
    (runOnce wC2).err = some (.metricsFailed "alpha" "prod") ∧
    (runOnce wC2).events = [.metricsFailed "alpha" "prod"] ∧
    (runOnce wC2).attempts = [] := by
  refine ⟨rfl, ?_, ?_, ?_⟩ <;> decide

/-- Claim C2 amended: a candidate's metrics fetch failure aborts the entire
cycle — `RunOnce` returns that candidate's metrics error immediately;
candidates processed before it keep their results and candidates after it
are not processed at all. -/
theorem metrics_failure_aborts_cycle (w : World) (done rest : List PodSpec)
    (p : PodSpec) (t : Quantity)
    (hlist : w.listResult = some (done ++ p :: rest))
    (hdone : ∀ q ∈ done, parseQuantity (thresholdAnnot q) ≠ none →
      (w.metrics q.ns q.name).isSome)
    (hthr : parseQuantity (thresholdAnnot p) = some t)
    (hm : w.metrics p.ns p.name = none) :
    runOnce w =
      ⟨some (.metricsFailed p.name p.ns), (done.map (countedOf w)).sum,
        done.map (eventOf w) ++ [.metricsFailed p.name p.ns],
        done.filterMap (attemptOf w)⟩ := by
  unfold runOnce
  rw [hlist]
  show runOnceAux w (done ++ p :: rest) 0 [] [] = _
  rw [runOnceAux_append w done (p :: rest) 0 [] [] hdone,
    runOnceAux_metricsFail w p rest _ _ _ t hthr hm]
  simp

/-- Claim C2 amended, witness: alpha's metrics failure ends the cycle before beta
is examined. -/
theorem metrics_failure_aborts_cycle_witness :
    runOnce wC2 =
      ⟨some (.metricsFailed "alpha" "prod"), 0,
        [.metricsFailed "alpha" "prod"], []⟩ :=
  metrics_failure_aborts_cycle wC2 [] [podBeta] podAlpha 536870912 rfl
    (by decide) (by decide) rfl

/-- Claim C3: the code contradicts the claim (and `evictPod`'s own success
signal).  At a violating candidate whose eviction request returns "not
found", `evictPod` classifies the outcome as a success (it returns true),
but `RunOnce` discards that bool and branches on the non-nil wrapped error:
the outcome is logged as `PodEvictionError` and the eviction counter is not
incremented. -/
theorem alreadyGone_logged_as_error :
    (evictPod wC3.client "alpha" "prod" "v1" false).evicted = true ∧
    (runOnce wC3).evictionCount = 0 ∧
    (runOnce wC3).events =
      [.evictionErrorLogged "alpha" "prod" .notFound] := by
  refine ⟨rfl, ?_, ?_⟩ <;> decide

/-- Claim C4: the eviction decision is strict greater-than.  For a candidate whose
threshold parses to t and whose readings sum to the usage u, the cycle makes
exactly one eviction attempt for it when u > t and none otherwise — in
particular none when u = t. -/
theorem strict_threshold_exactly_one_attempt (w : World)
    (pods : List PodSpec) (p : PodSpec) (t : Quantity) (rs : List Quantity)
    (hlist : w.listResult = some pods)
    (hmet : ∀ q ∈ pods, parseQuantity (thresholdAnnot q) ≠ none →
      (w.metrics q.ns q.name).isSome)
    (hnd : (pods.map podKey).Nodup) (hp : p ∈ pods)
    (hthr : parseQuantity (thresholdAnnot p) = some t)
    (hm : w.metrics p.ns p.name = some rs) :
    ((runOnce w).attempts.map callKey).count (podKey p) =
      if t < podUsage rs then 1 else 0 := by
  rw [runOnce_attempt_count w pods p hlist hmet hnd hp]
  by_cases hc : qcmp (podUsage rs) t = 1
  · rw [attemptOf_evict w p t rs hthr hm hc]
    simp [(qcmp_eq_one_iff _ _).mp hc]
  · rw [attemptOf_noEvict w p t rs hthr hm hc]
    have hnlt : ¬ t < podUsage rs := fun hlt => hc ((qcmp_eq_one_iff _ _).mpr hlt)
    simp [hnlt]

/-- Claim C4 witness: alpha (usage 600Mi, threshold 512Mi) receives exactly one
eviction attempt in the cycle of wC4. -/
theorem strict_threshold_exactly_one_attempt_witness :
    ((runOnce wC4).attempts.map callKey).count (podKey podAlpha) =
      if 536870912 < podUsage [629145600] then 1 else 0 :=
  strict_threshold_exactly_one_attempt wC4 [podAlpha, podBeta] podAlpha
    536870912 [629145600] rfl (by decide) (by decide) (by decide) (by decide)
    (by decide)

/-- Claim C5: the classification `evictPod`'s returned pair encodes coincides, for
every response of the external eviction capability, with the spec's policy
(nil → Succeeded, "too many requests" → Throttled, "not found" →
AlreadyGone, anything else → Failed); and within one cycle a candidate is
attempted at most once, so a throttled (or failed) outcome is never retried
before the next cycle. -/
theorem evictPod_outcome_classification :
    (∀ (client : String → String → Option ApiError) (pn pns gv : String),
      codeOutcome (evictPod client pn pns gv false) = specOutcome (client pns pn)) ∧
    (∀ (w : World) (pods : List PodSpec) (p : PodSpec),
      w.listResult = some pods →
      (∀ q ∈ pods, parseQuantity (thresholdAnnot q) ≠ none →
        (w.metrics q.ns q.name).isSome) →
      (pods.map podKey).Nodup → p ∈ pods →
      ((runOnce w).attempts.map callKey).count (podKey p) ≤ 1) := by
  constructor
  · intro client pn pns gv
    unfold evictPod
    cases h : client pns pn with
    | none => simp [h, codeOutcome, specOutcome]
    | some e => cases e <;> simp [h, codeOutcome, specOutcome]
  · intro w pods p hlist hmet hnd hp
    rw [runOnce_attempt_count w pods p hlist hmet hnd hp]
    cases hatt : attemptOf w p <;> simp

/-- Claim C5 witness: a throttled response is classified Throttled, and the
throttled candidate alpha is attempted at most once in the cycle of wC5. -/
theorem evictPod_outcome_classification_witness :
    codeOutcome (evictPod wC5.client "alpha" "prod" "v1" false) =
      specOutcome (wC5.client "prod" "alpha") ∧
    ((runOnce wC5).attempts.map callKey).count (podKey podAlpha) ≤ 1 :=
  ⟨evictPod_outcome_classification.1 wC5.client "alpha" "prod" "v1",
   evictPod_outcome_classification.2 wC5 [podAlpha] podAlpha rfl (by decide)
     (by decide) (by decide)⟩

/-- Claim C6 counterexample: in wC6b the candidate enumeration succeeds, yet
`RunOnce` returns an error (the candidate's metrics fetch failed) — refuting
the claim that `RunOnce` errors only when Listing failed. -/
theorem listing_not_sole_error_source_cex :
    wC6b.listResult = some [podAlpha] ∧
    (runOnce wC6b).err = some (.metricsFailed "alpha" "prod") := by
  exact ⟨rfl, by decide⟩

/-- Claim C6 amended: `RunOnce` produces the cycle's eviction count (emitted to
the log) and returns an error exactly in two situations — the candidate
enumeration failed, or some candidate's metrics fetch failed.  Threshold
parse failures and eviction failures never cause an error return. -/
theorem runOnce_error_conditions :
    (∀ w : World, w.listResult = none →
      runOnce w = ⟨some .listFailed, 0, [], []⟩) ∧
    (∀ (w : World) (pods : List PodSpec), w.listResult = some pods →
      (∀ q ∈ pods, parseQuantity (thresholdAnnot q) ≠ none →
        (w.metrics q.ns q.name).isSome) →
      (runOnce w).err = none ∧
      (runOnce w).evictionCount = (pods.map (countedOf w)).sum) ∧
    (∀ (w : World) (p : PodSpec) (rest : List PodSpec) (c : Nat)
      (evs : List PodEvent) (atts : List EvictCall) (t : Quantity),
      parseQuantity (thresholdAnnot p) = some t →
      w.metrics p.ns p.name = none →
      (runOnceAux w (p :: rest) c evs atts).err =
        some (.metricsFailed p.name p.ns)) := by
  refine ⟨?_, ?_, ?_⟩
  · intro w h; unfold runOnce; rw [h]
  · intro w pods hlist hmet
    rw [runOnce_trace w pods hlist hmet]
    exact ⟨rfl, rfl⟩
  · intro w p rest c evs atts t hthr hm
    rw [runOnceAux_metricsFail w p rest c evs atts t hthr hm]

/-- Claim C6 amended, witness: a failed enumeration errors; a cycle with a parse
failure and a failed eviction returns no error; a metrics fetch failure
makes the loop return a metrics error. -/
theorem runOnce_error_conditions_witness :
    runOnce wC6a = ⟨some .listFailed, 0, [], []⟩ ∧
    ((runOnce wC6c).err = none ∧
      (runOnce wC6c).evictionCount =
        ([podGamma, podAlpha].map (countedOf wC6c)).sum) ∧
    (runOnceAux wC6b (podAlpha :: []) 0 [] []).err =
      some (.metricsFailed "alpha" "prod") :=
  ⟨runOnce_error_conditions.1 wC6a rfl,
   runOnce_error_conditions.2.1 wC6c [podGamma, podAlpha] rfl (by decide),
   runOnce_error_conditions.2.2 wC6b podAlpha [] 0 [] [] 536870912
     (by decide) rfl⟩

/-- Claim C7: the scheduler loop runs one full reconciliation cycle immediately,
then one more per tick observed before cancellation; a cycle's error does
not stop the loop (the cycle-result list has the same shape whatever
`runOnce w` returns, errors included); the loop terminates exactly when the
cancellation signal occurs in the schedule, and only at an iteration
boundary — every entry of the result list is a completed `RunOnce` cycle,
so no cycle is preempted. -/
theorem scheduler_loop_behavior (w : World) (sigs : List Sig) :
    (runLoop w sigs).1 =
      List.replicate ((sigs.takeWhile fun s => s == Sig.tick).length + 1)
        (runOnce w) ∧
    ((runLoop w sigs).2 = true ↔ Sig.stop ∈ sigs) := by
  induction sigs with
  | nil => simp [runLoop]
  | cons s rest ih =>
    cases s with
    | stop => simp [runLoop, List.takeWhile_cons]
    | tick =>
      refine ⟨?_, ?_⟩
      · show runOnce w :: (runLoop w rest).1 = _
        rw [ih.1, List.takeWhile_cons]
        simp [List.replicate_succ]
      · show (runLoop w rest).2 = true ↔ Sig.stop ∈ Sig.tick :: rest
        rw [ih.2]
        simp

/-- Claim C8: the usage aggregator is the sum of the per-container readings; an
empty sequence of readings yields the zero quantity rather than an error,
and a candidate whose readings are empty is never evicted (zero usage never
strictly exceeds a parsed threshold). -/
theorem usage_aggregator_sum_empty_zero :
    (∀ rs : List Quantity, podUsage rs = rs.sum) ∧
    podUsage [] = 0 ∧
    (∀ (w : World) (pods : List PodSpec) (p : PodSpec) (t : Quantity),
      w.listResult = some pods →
      (∀ q ∈ pods, parseQuantity (thresholdAnnot q) ≠ none →
        (w.metrics q.ns q.name).isSome) →
      (pods.map podKey).Nodup → p ∈ pods →
      parseQuantity (thresholdAnnot p) = some t →
      w.metrics p.ns p.name = some [] →
      eventOf w p = .notEvicted p.name p.ns ∧
      ((runOnce w).attempts.map callKey).count (podKey p) = 0) := by
  have hzero : ∀ t : Quantity, ¬ qcmp (podUsage []) t = 1 := by
    intro t h
    exact absurd ((qcmp_eq_one_iff _ _).mp h) (Nat.not_lt_zero t)
  refine ⟨?_, rfl, ?_⟩
  · intro rs
    rw [podUsage, List.sum_eq_foldl]
  · intro w pods p t hlist hmet hnd hp hthr hm
    refine ⟨eventOf_noEvict w p t [] hthr hm (hzero t), ?_⟩
    rw [runOnce_attempt_count w pods p hlist hmet hnd hp,
      attemptOf_noEvict w p t [] hthr hm (hzero t)]
    rfl

/-- Claim C8 witness: epsilon reports no container readings and is not evicted;
the aggregator on a sample list is its sum and on the empty list is 0. -/
theorem usage_aggregator_sum_empty_zero_witness :
    podUsage [629145600, 1] = ([629145600, 1] : List Quantity).sum ∧
    podUsage [] = 0 ∧
    (eventOf wC8 podEpsilon = .notEvicted podEpsilon.name podEpsilon.ns ∧
      ((runOnce wC8).attempts.map callKey).count (podKey podEpsilon) = 0) :=
  ⟨usage_aggregator_sum_empty_zero.1 [629145600, 1],
   usage_aggregator_sum_empty_zero.2.1,
   usage_aggregator_sum_empty_zero.2.2 wC8 [podEpsilon] podEpsilon
     1073741824 rfl (by decide) (by decide) (by decide) (by decide) rfl⟩

/-- Claim C9: with the dry-run flag set, `evictPod` immediately returns success
without contacting the external eviction capability, whatever the pod name,
namespace and capability behavior. -/
theorem dryRun_short_circuits :
    ∀ (client : String → String → Option ApiError) (pn pns gv : String),
      evictPod client pn pns gv true = ⟨true, none, false⟩ := by
  intro client pn pns gv
  rfl

/-- Claim C10: `RunOnce` hard-codes the dry-run argument of every eviction call to
false — in every world, every issued call has dryRun = false — and a
non-dry-run call always contacts the external eviction capability, so every
threshold violation leads to a real eviction request. -/
theorem eviction_never_dry_run :
    (∀ w : World, ((runOnce w).attempts.all fun a => !a.dryRun) = true) ∧
    (∀ (client : String → String → Option ApiError) (pn pns gv : String),
      (evictPod client pn pns gv false).contacted = true) := by
  constructor
  · intro w
    rw [List.all_eq_true]
    intro a ha
    have hmem : ∀ a ∈ (runOnce w).attempts, a.dryRun = false := by
      unfold runOnce
      cases hl : w.listResult with
      | none => intro a ha; cases ha
      | some pods =>
        exact runOnceAux_attempts_not_dryRun w pods 0 [] []
          (by intro a ha; cases ha)
    simp [hmem a ha]
  · intro client pn pns gv
    unfold evictPod
    cases h : client pns pn with
    | none => simp [h]
    | some e => cases e <;> simp [h]

end Preoomkiller
